import Mathlib

/-!
Verification of the ntex timeout middleware, the deferred-execution
primitive and the upgrade hand-off placeholder, shallowly embedded from
the Rust sources.

Modelling conventions:
- `Poll` mirrors `std::task::Poll`.
- Rust `Result<T, E>` is `Except E T`.
- An asynchronous future with a fixed completion latency is modelled as
  an `InnerFuture`: it reports `Poll.Ready` exactly at poll instants at
  or after its latency, measured from the instant of the `call`.
- A Rust panic (fatal assertion such as `expect` or `unimplemented!`)
  is modelled by returning `none` from an `Option`-valued function.
- Driving (awaiting) a future is modelled by `pollFirst`: polling at
  the successive instants 0, 1, 2, ... and taking the value of the
  first poll that reports `Poll.Ready`.
-/

namespace Ntex

/-- Mirror of `std::task::Poll`. -/
inductive Poll (α : Type _) where
  | Ready : α → Poll α
  | Pending : Poll α
  deriving DecidableEq, Repr

/-- Mirror of `TimeoutError<E>` from `src/ntex/src/util/timeout.rs`:
a tagged union with a `Service` variant carrying the inner error and a
payload-free `Timeout` variant. -/
inductive TimeoutError (E : Type _) where
  | Service : E → TimeoutError E
  | Timeout : TimeoutError E
  deriving DecidableEq, Repr

/-- Embedding of `impl From<E> for TimeoutError<E>`. -/
def TimeoutError.from {E : Type _} (err : E) : TimeoutError E :=
  TimeoutError.Service err

/-- Embedding of the hand-written `impl PartialEq for TimeoutError`,
with the equality of the inner error type passed as `eqE`.  The nested
match follows the source. -/
def TimeoutError.eq {E : Type _} (eqE : E → E → Bool) :
    TimeoutError E → TimeoutError E → Bool
  | TimeoutError.Service e1, other =>
    match other with
    | TimeoutError.Service e2 => eqE e1 e2
    | TimeoutError.Timeout => false
  | TimeoutError.Timeout, other =>
    match other with
    | TimeoutError.Service _ => false
    | TimeoutError.Timeout => true

/-- Embedding of `impl Debug for TimeoutError`: the diagnostic
rendering, with the diagnostic rendering of the inner error passed as
`dbgE`. -/
def TimeoutError.debugFmt {E : Type _} (dbgE : E → String) :
    TimeoutError E → String
  | TimeoutError.Service e => "TimeoutError::Service(" ++ dbgE e ++ ")"
  | TimeoutError.Timeout => "TimeoutError::Timeout"

/-- Embedding of `impl Display for TimeoutError`: the human-readable
rendering, with the display rendering of the inner error passed as
`dispE`. -/
def TimeoutError.displayFmt {E : Type _} (dispE : E → String) :
    TimeoutError E → String
  | TimeoutError.Service e => dispE e
  | TimeoutError.Timeout => "Service call timeout"

/-- A future produced by the inner service: it completes at instant
`latency` (measured from the call) with outcome `result`. -/
structure InnerFuture (R E : Type _) where
  latency : Nat
  result : Except E R

/-- Polling an inner future at instant `now`: ready from `latency` on. -/
def InnerFuture.poll {R E : Type _} (f : InnerFuture R E) (now : Nat) :
    Poll (Except E R) :=
  if f.latency ≤ now then Poll.Ready f.result else Poll.Pending

/-- Polling the `Delay` created by `delay_for(timeout)` at instant
`now`: ready once the deadline has elapsed. -/
def Delay.poll (deadline now : Nat) : Poll Unit :=
  if deadline ≤ now then Poll.Ready () else Poll.Pending

/-- The future returned by `TimeoutService::call`: the `Either` of the
source, `response` embedding `TimeoutServiceResponse` (inner future
plus a `Delay` with the given deadline) and `response2` embedding
`TimeoutServiceResponse2` (inner future only, no timer field). -/
inductive TimeoutFuture (R E : Type _) where
  | response : InnerFuture R E → Nat → TimeoutFuture R E
  | response2 : InnerFuture R E → TimeoutFuture R E

/-- How both response futures map the inner outcome: success unchanged,
error wrapped into `TimeoutError::Service`. -/
def mapResult {R E : Type _} : Except E R → Except (TimeoutError E) R
  | Except.ok v => Except.ok v
  | Except.error e => Except.error (TimeoutError.Service e)

namespace TimeoutService

/-- Embedding of `TimeoutService::call`: a zero timeout selects the
timer-free `response2` future, otherwise a `response` future whose
delay fires at `timeout` (time is measured from the call instant). -/
def call {R E : Type _} (timeout : Nat) (fut : InnerFuture R E) :
    TimeoutFuture R E :=
  if timeout = 0 then TimeoutFuture.response2 fut
  else TimeoutFuture.response fut timeout

/-- Embedding of `TimeoutService::poll_ready`:
`self.service.poll_ready(cx).map_err(TimeoutError::Service)`, with the
result of the inner poll passed as `inner`. -/
def poll_ready {E : Type _} (inner : Poll (Except E Unit)) :
    Poll (Except (TimeoutError E) Unit) :=
  match inner with
  | Poll.Ready (Except.ok u) => Poll.Ready (Except.ok u)
  | Poll.Ready (Except.error e) =>
    Poll.Ready (Except.error (TimeoutError.Service e))
  | Poll.Pending => Poll.Pending

/-- Embedding of `TimeoutService::poll_shutdown`:
`self.service.poll_shutdown(cx, is_error)`, with the shutdown behavior
of the inner service passed as the function `inner`. -/
def poll_shutdown (inner : Bool → Poll Unit) (is_error : Bool) :
    Poll Unit :=
  inner is_error

end TimeoutService

/-- Embedding of the two `poll` implementations
(`TimeoutServiceResponse::poll` and `TimeoutServiceResponse2::poll`):
in the timered variant the inner future is polled first and the sleep
is only consulted when the inner future is pending. -/
def TimeoutFuture.poll {R E : Type _} :
    TimeoutFuture R E → Nat → Poll (Except (TimeoutError E) R)
  | TimeoutFuture.response fut deadline, now =>
    match fut.poll now with
    | Poll.Ready (Except.ok v) => Poll.Ready (Except.ok v)
    | Poll.Ready (Except.error e) =>
      Poll.Ready (Except.error (TimeoutError.Service e))
    | Poll.Pending =>
      match Delay.poll deadline now with
      | Poll.Pending => Poll.Pending
      | Poll.Ready _ => Poll.Ready (Except.error TimeoutError.Timeout)
  | TimeoutFuture.response2 fut, now =>
    match fut.poll now with
    | Poll.Ready (Except.ok v) => Poll.Ready (Except.ok v)
    | Poll.Ready (Except.error e) =>
      Poll.Ready (Except.error (TimeoutError.Service e))
    | Poll.Pending => Poll.Pending

/-- The value of a poll result, when ready. -/
def Poll.toOption {α : Type _} : Poll α → Option α
  | Poll.Ready a => some a
  | Poll.Pending => none

/-- Driving a future: poll at instants 0, 1, ..., n and return the
value of the earliest poll that is ready, if any. -/
def pollFirst {α : Type _} (p : Nat → Poll α) : Nat → Option α
  | 0 => (p 0).toOption
  | n + 1 =>
    match pollFirst p n with
    | some a => some a
    | none => (p (n + 1)).toOption

/-- Mirror of `Lazy<F>` from `src/ntex-service/src/lazy.rs`: holds at
most one pending closure.  The closure takes the polling context `Ctx`
and returns an `R` synchronously. -/
structure Lazy (Ctx R : Type _) where
  f : Option (Ctx → R)

/-- Embedding of the `lazy` constructor: stores the closure. -/
def lazy {Ctx R : Type _} (f : Ctx → R) : Lazy Ctx R :=
  Lazy.mk (some f)

/-- Embedding of `Lazy::poll`:
`Poll::Ready((self.f.take().expect("Lazy polled after completion"))(cx))`.
The mutation of `self` by `take` is made explicit by returning the
successor state; the `expect` panic on an already-consumed closure is
modelled by `none`. -/
def Lazy.poll {Ctx R : Type _} (l : Lazy Ctx R) (cx : Ctx) :
    Option (Poll R × Lazy Ctx R) :=
  match l.f with
  | some f => some (Poll.Ready (f cx), Lazy.mk none)
  | none => none

/-- Mirror of the `io::Error` type used by the upgrade placeholder; its
structure is irrelevant to the claims. -/
structure IoError where
  msg : String
  deriving DecidableEq, Repr

/-- Mirror of `UpgradeHandler<F>` from `src/ntex/src/http/h1/upgrade.rs`:
a phantom placeholder with no fields. -/
structure UpgradeHandler where
  deriving DecidableEq, Repr

namespace UpgradeHandler

/-- Embedding of `<UpgradeHandler as ServiceFactory>::new_service`: the
body is `unimplemented!()`, modelled as `none`; it never produces a
service (`Except.ok`) nor a typed init error (`Except.error`).  The
configuration type is `()` as in the source. -/
def new_service (_self : UpgradeHandler) (_cfg : Unit) :
    Option (Except IoError UpgradeHandler) :=
  none

/-- Embedding of `<UpgradeHandler as Service>::poll_ready`: it ignores
the waker context `cx` and is immediately `Poll::Ready(Ok(()))`. -/
def poll_ready {Ctx : Type _} (_self : UpgradeHandler) (_cx : Ctx) :
    Poll (Except IoError Unit) :=
  Poll.Ready (Except.ok ())

/-- Embedding of `<UpgradeHandler as Service>::call`: the body is
`unimplemented!()`, modelled as `none`; it never produces a response
future.  The request type (parsed request, transport handle, residual
codec) is abstracted as `Req`. -/
def call {Req : Type _} (_self : UpgradeHandler) (_req : Req) :
    Option (Except IoError Unit) :=
  none

end UpgradeHandler

/-! Driver lemmas for `pollFirst`. -/

/-- If every poll up to instant `n` is pending, driving up to `n`
yields nothing. -/
lemma pollFirst_none {α : Type _} (p : Nat → Poll α) (n : Nat)
    (h : ∀ m, m ≤ n → p m = Poll.Pending) :
    pollFirst p n = none := by
  induction n with
  | zero =>
    simp [pollFirst, h 0 (Nat.le_refl 0), Poll.toOption]
  | succ n ih =>
    have hn : pollFirst p n = none :=
      ih fun m hm => h m (Nat.le_succ_of_le hm)
    simp [pollFirst, hn, h (n + 1) (Nat.le_refl _), Poll.toOption]

/-- If the polls before instant `k` are pending and the poll at `k` is
ready with value `a`, then driving up to any `n ≥ k` yields `a`. -/
lemma pollFirst_ready {α : Type _} (p : Nat → Poll α) (k : Nat) (a : α)
    (hk : p k = Poll.Ready a)
    (hlt : ∀ m, m < k → p m = Poll.Pending) :
    ∀ n, k ≤ n → pollFirst p n = some a := by
  intro n
  induction n with
  | zero =>
    intro hn
    have hk0 : k = 0 := Nat.le_zero.mp hn
    simp [pollFirst, hk0 ▸ hk, Poll.toOption]
  | succ n ih =>
    intro hn
    rcases Nat.lt_or_ge n k with hlt2 | hge
    · have hkeq : k = n + 1 := Nat.le_antisymm hn hlt2
      have hnone : pollFirst p n = none :=
        pollFirst_none p n fun m hm =>
          hlt m (Nat.lt_of_le_of_lt hm (hkeq ▸ Nat.lt_succ_self n))
      simp [pollFirst, hnone, hkeq ▸ hk, Poll.toOption]
    · have hsome : pollFirst p n = some a := ih hge
      simp [pollFirst, hsome]

/-- Embedding of the shutdown behavior of the test-module inner service
SleepService in `src/ntex/src/util/timeout.rs`: ready immediately when
is_error is true, otherwise pending. -/
def SleepService.poll_shutdown (is_error : Bool) : Poll Unit :=
  if is_error then Poll.Ready () else Poll.Pending

/-! Characterization lemmas for one poll of the timered response. -/

/-- When the inner future is complete at the poll instant, the timered
response yields its mapped outcome, whatever the deadline. -/
lemma response_poll_inner_ready {R E : Type _} (fut : InnerFuture R E)
    (d now : Nat) (h : fut.latency ≤ now) :
    (TimeoutFuture.response fut d).poll now = Poll.Ready (mapResult fut.result) := by
  cases fut with
  | mk t res =>
    cases res with
    | ok v => simp [TimeoutFuture.poll, InnerFuture.poll, h, mapResult]
    | error e => simp [TimeoutFuture.poll, InnerFuture.poll, h, mapResult]

/-- When the inner future is pending and the deadline has elapsed, the
timered response yields the Timeout error. -/
lemma response_poll_expired {R E : Type _} (fut : InnerFuture R E)
    (d now : Nat) (h : ¬ fut.latency ≤ now) (hd : d ≤ now) :
    (TimeoutFuture.response fut d).poll now =
      Poll.Ready (Except.error TimeoutError.Timeout) := by
  simp [TimeoutFuture.poll, InnerFuture.poll, h, Delay.poll, hd]

/-- When neither the inner future nor the deadline is ready, the
timered response is pending. -/
lemma response_poll_pending {R E : Type _} (fut : InnerFuture R E)
    (d now : Nat) (h : ¬ fut.latency ≤ now) (hd : ¬ d ≤ now) :
    (TimeoutFuture.response fut d).poll now = Poll.Pending := by
  simp [TimeoutFuture.poll, InnerFuture.poll, h, Delay.poll, hd]

/-- One poll of the timer-free response: the mapped inner outcome when
the inner future is complete, pending otherwise. -/
lemma response2_poll {R E : Type _} (fut : InnerFuture R E) (now : Nat) :
    (TimeoutFuture.response2 fut).poll now =
      (if fut.latency ≤ now then Poll.Ready (mapResult fut.result)
       else Poll.Pending) := by
  cases fut with
  | mk t res =>
    by_cases h : t ≤ now
    · cases res with
      | ok v => simp [TimeoutFuture.poll, InnerFuture.poll, h, mapResult]
      | error e => simp [TimeoutFuture.poll, InnerFuture.poll, h, mapResult]
    · simp [TimeoutFuture.poll, InnerFuture.poll, h]

/-- The mapped inner outcome is never the Timeout error. -/
lemma mapResult_ne_timeout {R E : Type _} (res : Except E R) :
    mapResult res ≠ Except.error TimeoutError.Timeout := by
  cases res with
  | ok v => simp [mapResult]
  | error e => simp [mapResult]

/-! Claim theorems. -/

/-- C1 counterexample: with configured duration d = 1 and inner
latency t = 1 (so t ≥ d), driving the call yields the inner success
value, not the Timeout error, because the poll at instant 1 checks the
inner future before the deadline.  This refutes the claim that t ≥ d
always yields Expired. -/
theorem timeout_race_boundary_counterexample :
    pollFirst
        (fun now =>
          (@TimeoutService.call Nat Unit 1 (InnerFuture.mk 1 (Except.ok 7))).poll now)
        1 = some (Except.ok 7) ∧
      (some (Except.ok 7) : Option (Except (TimeoutError Unit) Nat)) ≠
        some (Except.error TimeoutError.Timeout) := by
  exact ⟨rfl, by simp⟩

/-- C1 (amended): for every non-zero configured duration d and every
inner latency t, driving the call through the timeout middleware up to
any instant n covering both t and d yields the mapped inner outcome
when t ≤ d (success unchanged, error re-tagged as Service), and the
Timeout error when t > d.  The boundary t = d goes to the inner
outcome because the inner future is polled before the deadline. -/
theorem timeout_race_outcome {R E : Type _} (t d n : Nat)
    (res : Except E R) (hd : 0 < d) (ht : t ≤ n) (hdn : d ≤ n) :
    pollFirst (fun now => (TimeoutService.call d (InnerFuture.mk t res)).poll now) n =
      some (if t ≤ d then mapResult res
            else Except.error TimeoutError.Timeout) := by
  have hcall : TimeoutService.call d (InnerFuture.mk t res) =
      TimeoutFuture.response (InnerFuture.mk t res) d := by
    simp [TimeoutService.call, Nat.pos_iff_ne_zero.mp hd]
  rw [hcall]
  by_cases htd : t ≤ d
  · rw [if_pos htd]
    refine pollFirst_ready _ t _ ?_ ?_ n ht
    · exact response_poll_inner_ready (InnerFuture.mk t res) d t (Nat.le_refl t)
    · intro m hm
      exact response_poll_pending (InnerFuture.mk t res) d m
        (Nat.not_le_of_lt hm)
        (Nat.not_le_of_lt (Nat.lt_of_lt_of_le hm htd))
  · rw [if_neg htd]
    have hdt : d < t := Nat.lt_of_not_le htd
    refine pollFirst_ready _ d _ ?_ ?_ n hdn
    · exact response_poll_expired (InnerFuture.mk t res) d d
        (fun hc => htd (Nat.le_trans hc (Nat.le_refl d))) (Nat.le_refl d)
    · intro m hm
      exact response_poll_pending (InnerFuture.mk t res) d m
        (Nat.not_le_of_lt (Nat.lt_trans hm hdt))
        (Nat.not_le_of_lt hm)

/-- C1 witness: duration 2, latency 1, inner succeeds with 5; driving
up to instant 2 yields the inner success value. -/
theorem timeout_race_outcome_witness :
    (0 < 2 ∧ 1 ≤ 2 ∧ 2 ≤ 2) ∧
      pollFirst
          (fun now =>
            (@TimeoutService.call Nat Unit 2 (InnerFuture.mk 1 (Except.ok 5))).poll now)
          2 = some (Except.ok 5) := by
  have h := @timeout_race_outcome Nat Unit 1 2 2 (Except.ok 5)
    (by decide) (by decide) (by decide)
  exact ⟨⟨by decide, by decide, by decide⟩, by simpa using h⟩

/-- C2: with a zero configured duration, the call selects the
timer-free response2 future (no timer object in its state), and for
every inner latency t, however large, driving up to any instant n ≥ t
yields the mapped inner outcome: the timeout never fires. -/
theorem timeout_zero_disabled {R E : Type _} (t n : Nat)
    (res : Except E R) (ht : t ≤ n) :
    TimeoutService.call 0 (InnerFuture.mk t res) =
        TimeoutFuture.response2 (InnerFuture.mk t res) ∧
      pollFirst
          (fun now => (TimeoutService.call 0 (InnerFuture.mk t res)).poll now) n =
        some (mapResult res) := by
  have hcall : TimeoutService.call 0 (InnerFuture.mk t res) =
      TimeoutFuture.response2 (InnerFuture.mk t res) := by
    simp [TimeoutService.call]
  refine ⟨hcall, ?_⟩
  rw [hcall]
  refine pollFirst_ready _ t _ ?_ ?_ n ht
  · simp [response2_poll]
  · intro m hm
    simp [response2_poll, Nat.not_le_of_lt hm]

/-- C2 witness: duration 0, inner latency 1000; driving up to instant
1000 yields the inner success value even though the latency is far
beyond any deadline. -/
theorem timeout_zero_disabled_witness :
    (1000 : Nat) ≤ 1000 ∧
      TimeoutService.call 0 (InnerFuture.mk 1000 (Except.ok (5 : Nat))) =
        TimeoutFuture.response2
          (InnerFuture.mk 1000 (Except.ok (5 : Nat)) : InnerFuture Nat Unit) ∧
      pollFirst
          (fun now =>
            (@TimeoutService.call Nat Unit 0
                (InnerFuture.mk 1000 (Except.ok 5))).poll now) 1000 =
        some (Except.ok 5) := by
  have h := @timeout_zero_disabled Nat Unit 1000 1000 (Except.ok 5) (Nat.le_refl 1000)
  exact ⟨Nat.le_refl 1000, h.1, by simpa [mapResult] using h.2⟩

/-- C3: in any single poll of the timered response at an instant where
the inner future is complete, the result is the mapped inner outcome
and is never the Timeout error, whatever the deadline, elapsed or not:
the inner future is polled before the deadline. -/
theorem timeout_inner_priority {R E : Type _} (fut : InnerFuture R E)
    (d now : Nat) (h : fut.latency ≤ now) :
    (TimeoutFuture.response fut d).poll now = Poll.Ready (mapResult fut.result) ∧
      (TimeoutFuture.response fut d).poll now ≠
        Poll.Ready (Except.error TimeoutError.Timeout) := by
  refine ⟨response_poll_inner_ready fut d now h, ?_⟩
  rw [response_poll_inner_ready fut d now h]
  intro hc
  exact mapResult_ne_timeout fut.result (by injection hc)

/-- C3 witness: inner future complete at instant 2 with success 9,
deadline 1 already elapsed at the poll instant 3; the poll still
yields the inner success, not Expired. -/
theorem timeout_inner_priority_witness :
    InnerFuture.latency (InnerFuture.mk 2 (Except.ok (9 : Nat)) : InnerFuture Nat Unit) ≤ 3 ∧
      (TimeoutFuture.response (InnerFuture.mk 2 (Except.ok (9 : Nat)) : InnerFuture Nat Unit) 1).poll 3 =
        Poll.Ready (Except.ok 9) := by
  have h := @timeout_inner_priority Nat Unit (InnerFuture.mk 2 (Except.ok 9)) 1 3 (by decide)
  exact ⟨by decide, by simpa [mapResult] using h.1⟩

/-- C4 counterexample: the timeout middleware merely delegates
shutdown, so with an inner service whose shutdown is pending even when
is_error is true, the middleware reports pending rather than complete:
shutdown with is_error = true does not always complete immediately. -/
theorem timeout_shutdown_counterexample :
    TimeoutService.poll_shutdown (fun _ => Poll.Pending) true = Poll.Pending ∧
      (Poll.Pending : Poll Unit) ≠ Poll.Ready () := by
  exact ⟨rfl, by simp⟩

/-- C4 (amended): shutdown on the timeout middleware delegates to the
inner service unchanged, for both values of is_error; it reports
complete exactly when the inner service does.  In particular, with the
test-module inner service, whose shutdown completes immediately on
is_error = true and is pending on is_error = false, the middleware
shows exactly that behavior. -/
theorem timeout_shutdown_delegates (inner : Bool → Poll Unit) (b : Bool) :
    TimeoutService.poll_shutdown inner b = inner b ∧
      TimeoutService.poll_shutdown SleepService.poll_shutdown true =
        Poll.Ready () ∧
      TimeoutService.poll_shutdown SleepService.poll_shutdown false =
        Poll.Pending := by
  exact ⟨rfl, rfl, rfl⟩

/-- C5: the first poll of the deferred-execution primitive built from
a closure f executes f with the polling context, returns its result as
complete and consumes the closure (the successor state holds none);
polling the consumed instance again yields no value at all, modelling
the fatal assertion. -/
theorem lazy_poll_once {C R : Type _} (f : C → R) (cx cx2 : C) :
    (lazy f).poll cx = some (Poll.Ready (f cx), Lazy.mk none) ∧
      (Lazy.mk (none : Option (C → R))).poll cx2 = none := by
  exact ⟨rfl, rfl⟩

/-- C6: readiness of the timeout middleware equals the readiness of
the inner service with the error mapped into Service: ready-ok and
pending pass through unchanged, and an inner error e becomes
Service e. -/
theorem timeout_poll_ready_delegates {E : Type _} (e : E) :
    TimeoutService.poll_ready (Poll.Ready (Except.ok () : Except E Unit)) =
        Poll.Ready (Except.ok ()) ∧
      TimeoutService.poll_ready (Poll.Ready (Except.error e)) =
        Poll.Ready (Except.error (TimeoutError.Service e)) ∧
      TimeoutService.poll_ready (Poll.Pending : Poll (Except E Unit)) =
        Poll.Pending := by
  exact ⟨rfl, rfl, rfl⟩

/-- C7: two TimeoutError values are equal under the embedded PartialEq
exactly when both are Timeout, or both are Service with inner errors
related by the inner equality; a Timeout value is never equal to a
Service value in either order. -/
theorem timeout_error_eq_spec {E : Type _} (eqE : E → E → Bool)
    (a b : TimeoutError E) :
    (TimeoutError.eq eqE a b = true ↔
        ((a = TimeoutError.Timeout ∧ b = TimeoutError.Timeout) ∨
          (∃ e1 e2, a = TimeoutError.Service e1 ∧ b = TimeoutError.Service e2 ∧
            eqE e1 e2 = true))) ∧
      (∀ e : E,
        TimeoutError.eq eqE TimeoutError.Timeout (TimeoutError.Service e) = false ∧
          TimeoutError.eq eqE (TimeoutError.Service e) TimeoutError.Timeout = false) := by
  constructor
  · cases a with
    | Service e1 =>
      cases b with
      | Service e2 => simp [TimeoutError.eq]
      | Timeout => simp [TimeoutError.eq]
    | Timeout =>
      cases b with
      | Service e2 => simp [TimeoutError.eq]
      | Timeout => simp [TimeoutError.eq]
  · intro e
    exact ⟨rfl, rfl⟩

/-- C8: the diagnostic rendering of a TimeoutError is
TimeoutError::Service(inner diagnostic) for the Service variant and
TimeoutError::Timeout for the Timeout variant; the display rendering
is the display text of the inner error for the Service variant and the
literal Service call timeout for the Timeout variant. -/
theorem timeout_error_fmt_spec {E : Type _} (dbgE dispE : E → String) (e : E) :
    TimeoutError.debugFmt dbgE (TimeoutError.Service e) =
        "TimeoutError::Service(" ++ dbgE e ++ ")" ∧
      TimeoutError.debugFmt dbgE (TimeoutError.Timeout : TimeoutError E) =
        "TimeoutError::Timeout" ∧
      TimeoutError.displayFmt dispE (TimeoutError.Service e) = dispE e ∧
      TimeoutError.displayFmt dispE (TimeoutError.Timeout : TimeoutError E) =
        "Service call timeout" := by
  exact ⟨rfl, rfl, rfl, rfl⟩

/-- C9: the upgrade placeholder reports ready immediately for every
waker context, and its call yields no response at all for any request,
modelling the unimplemented panic. -/
theorem upgrade_placeholder_spec {C Q : Type _} (u : UpgradeHandler)
    (cx : C) (req : Q) :
    UpgradeHandler.poll_ready u cx = Poll.Ready (Except.ok ()) ∧
      UpgradeHandler.call u req = none := by
  exact ⟨rfl, rfl⟩

/-- C10: the upgrade placeholder factory build operation yields no
value for the (unit) configuration: it returns neither a service nor a
typed init error, modelling the unimplemented panic in new_service. -/
theorem upgrade_new_service_unreachable (u : UpgradeHandler) (cfg : Unit) :
    UpgradeHandler.new_service u cfg = none ∧
      (∀ s : UpgradeHandler,
        UpgradeHandler.new_service u cfg ≠ some (Except.ok s)) ∧
      (∀ e : IoError,
        UpgradeHandler.new_service u cfg ≠ some (Except.error e)) := by
  refine ⟨rfl, ?_, ?_⟩
  · intro s
    simp [UpgradeHandler.new_service]
  · intro e
    simp [UpgradeHandler.new_service]

end Ntex
